import Mathlib

/-!
Shallow embedding of `src/main.py`, an incremental GitHub-commit ingester:
paginated fetch of recent commits per repository (`fetch_commit_history`),
a rate-limit wait helper (`wait_for_rate_limit`), a concurrent collector
(`fetch_all_commit_histories`) and a dedup merge into a Snowflake table
(`increment_table`).  Tables are modelled as lists of rows, HTTP traffic as
an explicit list of scripted responses consumed in request order, and the
Snowflake statements as pure state transformers.
-/

set_option autoImplicit false

namespace ScrollGit

/-- One row of the permanent table `SCROLLSTATS_GIT_COMMITS` (columns
`DATE`, `USERNAME`, `REPO_NAME`), equivalently one record produced by
`fetch_commit_history` (keys `date`, `username`, `repo_name`; the
column-name uppercasing in `increment_table` is identity on this model). -/
structure CommitRecord where
  date : String
  username : String
  repoName : String
  deriving DecidableEq, Repr

/-- The three-column comparison used by the `WHERE NOT EXISTS` subquery of
the merge statement in `increment_table`:
`main.DATE = temp.DATE AND main.USERNAME = temp.USERNAME AND main.REPO_NAME = temp.REPO_NAME`. -/
def keyEq (a b : CommitRecord) : Bool :=
  a.date == b.date && a.username == b.username && a.repoName == b.repoName

/-- `EXISTS (SELECT 1 FROM main WHERE ...)` for one candidate row `r`. -/
def keyInTable (t : List CommitRecord) (r : CommitRecord) : Bool :=
  t.any (fun s => keyEq s r)

/-- The rows the merge statement copies from staging into the permanent
table: staged rows whose key triple is absent from the permanent table.
The `NOT EXISTS` subquery reads the permanent table as of the start of the
`INSERT` statement, so staged rows are filtered against the pre-merge
table only, not against each other. -/
def insertedRows (main batch : List CommitRecord) : List CommitRecord :=
  batch.filter (fun r => !(keyInTable main r))

/-- Permanent-table content after the merge statement of `increment_table`:
`INSERT INTO main SELECT * FROM temp WHERE NOT EXISTS (...)`. -/
def mergeTable (main batch : List CommitRecord) : List CommitRecord :=
  main ++ insertedRows main batch

/-- The invariant claimed for the permanent table: no two stored rows agree
on all of (DATE, USERNAME, REPO_NAME). -/
def noDupKeys : List CommitRecord → Bool
  | [] => true
  | r :: rs => !(keyInTable rs r) && noDupKeys rs

/-- Value of a nonempty digit string, as Python `int` computes it. -/
def digitsVal (ds : List Char) : Nat :=
  ds.foldl (fun n c => n * 10 + (c.toNat - '0'.toNat)) 0

/-- Python `int(s)` on a string: optional surrounding whitespace, optional
sign, then a nonempty run of digits; `none` where Python `int` raises
`ValueError`.  (Python additionally accepts underscore digit separators
and non-ASCII digits; header values in scope never use either.) -/
def pyIntChars (cs : List Char) : Option Int :=
  let t := ((cs.dropWhile Char.isWhitespace).reverse.dropWhile Char.isWhitespace).reverse
  match t with
  | [] => none
  | '-' :: ds =>
    if ds.isEmpty then none
    else if ds.all Char.isDigit then some (-(digitsVal ds : Int)) else none
  | '+' :: ds =>
    if ds.isEmpty then none
    else if ds.all Char.isDigit then some ((digitsVal ds : Int)) else none
  | ds => if ds.all Char.isDigit then some ((digitsVal ds : Int)) else none

def pyInt (s : String) : Option Int :=
  pyIntChars s.data

/-- `wait_for_rate_limit(headers)`.  `resetHeader` is
`headers.get('X-RateLimit-Reset')` when the key is present; `now1` is
`int(time.time())` as evaluated for the `.get` default, `now2` is
`int(time.time())` inside the sleep computation (`now1 ≤ now2`: the second
clock reading is never earlier).  Returns the seconds slept
(`max 0 (reset_time - now2)`), or an error where `int()` raises
`ValueError` on an unparseable header value. -/
def waitForRateLimit (resetHeader : Option String) (now1 now2 : Int) :
    Except Unit Int :=
  match resetHeader with
  | none => Except.ok (max 0 (now1 - now2))
  | some s =>
    match pyInt s with
    | none => Except.error ()
    | some reset => Except.ok (max 0 (reset - now2))

/-- Whether the `wait_for_rate_limit` call on these headers raises:
exactly when a present `X-RateLimit-Reset` value does not parse as an
integer. -/
def rateLimitRaises : Option String → Bool
  | none => false
  | some s => (pyInt s).isNone

/-- One commit item of a JSON page, reduced to the fields the fetch loop
reads: `commit.commit.author.date` and `commit.commit.author.name`. -/
structure ApiCommit where
  date : String
  username : String
  deriving DecidableEq, Repr

/-- One scripted HTTP response for one `requests.get` call of the fetch
loop: status code, the `X-RateLimit-Reset` header value if present, the
raw `response.content`, the parsed commit list (read only on status 200),
and whether `"next" in response.links`. -/
structure HttpResponse where
  status : Nat
  resetHeader : Option String
  content : String
  commits : List ApiCommit
  hasNext : Bool
  deriving DecidableEq, Repr

/-- The record `fetch_commit_history` builds from one commit item:
`date`, `username`, and `repo_name = f"owner/repo"`. -/
def commitRecordOf (owner repo : String) (c : ApiCommit) : CommitRecord :=
  ⟨c.date, c.username, owner ++ "/" ++ repo⟩

/-- The records one 200 page contributes to `commit_history`. -/
def pageRecords (owner repo : String) (cs : List ApiCommit) : List CommitRecord :=
  cs.map (commitRecordOf owner repo)

/-- Observable events of one `fetch_commit_history` call: each
`requests.get` (with the page number it requests) and each
`wait_for_rate_limit` invocation (with the reset header it receives). -/
inductive FetchEvent where
  | request (page : Nat)
  | rateWait (resetHeader : Option String)
  deriving DecidableEq, Repr

/-- How one `fetch_commit_history` call ends. -/
inductive FetchOutcome where
  /-- `return commit_history` -/
  | ok (records : List CommitRecord)
  /-- the explicit `raise Exception(f"Failed to fetch commit history: ...")` -/
  | err (msg : String)
  /-- `ValueError` raised by `int()` inside `wait_for_rate_limit` -/
  | valueError
  /-- model artifact: the finite response script ran out mid-loop -/
  | exhausted
  deriving DecidableEq, Repr

/-- The `while True` loop of `fetch_commit_history`, consuming one
scripted response per request, starting at the given page with the given
accumulated `commit_history`.  On 403 it invokes the rate limiter and
retries without changing `page`; on any other non-200 it raises with the
response content; on 200 it extends the accumulator and advances `page`
only when a `next` link is present. -/
def fetchGo (owner repo : String) :
    List HttpResponse → Nat → List CommitRecord → List FetchEvent × FetchOutcome
  | [], _page, _acc => ([], FetchOutcome.exhausted)
  | r :: rest, page, acc =>
    if r.status == 403 then
      if rateLimitRaises r.resetHeader then
        ([FetchEvent.request page, FetchEvent.rateWait r.resetHeader],
         FetchOutcome.valueError)
      else
        let next := fetchGo owner repo rest page acc
        (FetchEvent.request page :: FetchEvent.rateWait r.resetHeader :: next.1, next.2)
    else if r.status != 200 then
      ([FetchEvent.request page],
       FetchOutcome.err ("Failed to fetch commit history: " ++ r.content))
    else
      let acc2 := acc ++ pageRecords owner repo r.commits
      if r.hasNext then
        let next := fetchGo owner repo rest (page + 1) acc2
        (FetchEvent.request page :: next.1, next.2)
      else
        ([FetchEvent.request page], FetchOutcome.ok acc2)

/-- `fetch_commit_history(owner, repo)` run against a response script:
`page = 1`, `commit_history = []`. -/
def fetchCommitHistory (owner repo : String) (responses : List HttpResponse) :
    List FetchEvent × FetchOutcome :=
  fetchGo owner repo responses 1 []

/-- A successful page response of a synthetic paginated source. -/
def page200 (cs : List ApiCommit) (more : Bool) : HttpResponse :=
  ⟨200, none, "", cs, more⟩

/-- Scripted responses of a synthetic paginated source with the given
nonempty page list: each response carries one page and a continuation
link exactly while further pages remain. -/
def pagedResponses : List (List ApiCommit) → List HttpResponse
  | [] => []
  | [cs] => [page200 cs false]
  | cs :: rest => page200 cs true :: pagedResponses rest

/-- The response script of a synthetic source holding K pages: a source
with K = 0 (no commits in the window) still answers the first request,
with an empty page and no continuation link. -/
def syntheticSource (pages : List (List ApiCommit)) : List HttpResponse :=
  match pages with
  | [] => [page200 [] false]
  | _ => pagedResponses pages

/-- One repository row of `SCROLLSTATS_LABELS_REPOS` as
`fetch_all_commit_histories` reads it: `OWNER`, `NAME`, `URL`. -/
structure RepoTarget where
  owner : String
  name : String
  url : String
  deriving DecidableEq, Repr

/-- The `as_completed` loop of `fetch_all_commit_histories`, given the
completed futures in completion order, each paired with its result:
`future.result()` either returns the fetched records or re-raises the
task's exception (modelled by its message).  A success appends the
repository's dataframe to `dfs`; a failure is reported (printed with the
repository's URL) and contributes nothing to `dfs`. -/
def collectAll :
    List (RepoTarget × Except String (List CommitRecord)) →
      List (List CommitRecord) × List (RepoTarget × String)
  | [] => ([], [])
  | (_repo, Except.ok recs) :: rest =>
    let done := collectAll rest
    (recs :: done.1, done.2)
  | (repo, Except.error e) :: rest =>
    let done := collectAll rest
    (done.1, (repo, e) :: done.2)

/-- Snowflake state visible to `increment_table`: the permanent table
`SCROLLSTATS_GIT_COMMITS` and the session staging table
`TEMP_SCROLLSTATS_GIT_COMMITS` (absent until created). -/
structure DB where
  main : List CommitRecord
  temp : Option (List CommitRecord)
  deriving DecidableEq, Repr

/-- Failures of the staging steps of `increment_table`; a failing
statement raises and the remaining statements of the call do not run. -/
inductive StorageError where
  | createTempFailed
  | writeFailed
  deriving DecidableEq, Repr

/-- `cursor.execute(create_temp_table_query)`: creates the empty staging
table; `ok` injects whether Snowflake accepts the statement. -/
def createTempStep (ok : Bool) (db : DB) : Except StorageError DB :=
  if ok then Except.ok { db with temp := some [] }
  else Except.error StorageError.createTempFailed

/-- `write_pandas(conn, df, temp_table_name)`: bulk-loads the batch into
the staging table and returns `(success, nchunks, nrows, _)`, of which the
code keeps `success` and `nrows` — the row count loaded into staging.
Failure raises. -/
def writePandasStep (ok : Bool) (batch : List CommitRecord) (db : DB) :
    Except StorageError (DB × Bool × Nat) :=
  if ok then
    Except.ok ({ db with temp := db.temp.map (fun t => t ++ batch) },
               true, batch.length)
  else Except.error StorageError.writeFailed

/-- `cursor.execute(merge_query)`: the dedup insert from staging into the
permanent table (no-op on the permanent table if staging was never
created, which cannot happen on the path that reaches this statement). -/
def mergeStep (db : DB) : DB :=
  match db.temp with
  | some t => { db with main := mergeTable db.main t }
  | none => db

/-- `increment_table(df)`: create staging, bulk-load the batch, run the
dedup merge.  Returns the database after the call together with either
the `(success, nrows)` pair the closing report is printed from, or the
storage error that propagated out of the failing statement. -/
def incrementTable (createOk writeOk : Bool) (batch : List CommitRecord)
    (db : DB) : DB × Except StorageError (Bool × Nat) :=
  match createTempStep createOk db with
  | Except.error e => (db, Except.error e)
  | Except.ok db1 =>
    match writePandasStep writeOk batch db1 with
    | Except.error e => (db1, Except.error e)
    | Except.ok (db2, success, nrows) =>
      (mergeStep db2, Except.ok (success, nrows))

/-- Outcome of the module-level run: the final database state, whether
`increment_table` was reached, and the message of an uncaught exception
if one aborted the run. -/
structure RunOutcome where
  db : DB
  mergeCalled : Bool
  raised : Option String
  deriving DecidableEq, Repr

/-- `pd.concat(dfs, ignore_index=True)`: raises `ValueError` on an empty
list of dataframes, otherwise concatenates their rows. -/
def pdConcat (dfs : List (List CommitRecord)) :
    Except String (List CommitRecord) :=
  if dfs.isEmpty then Except.error "No objects to concatenate"
  else Except.ok dfs.flatten

/-- The module-level run after the repository list is loaded:
`fetch_all_commit_histories(repos)` fills `dfs`, `pd.concat(dfs)` builds
the final dataframe, `increment_table(df)` merges it (storage assumed
healthy on this path). -/
def runMain (completed : List (RepoTarget × Except String (List CommitRecord)))
    (db : DB) : RunOutcome :=
  let dfs := (collectAll completed).1
  match pdConcat dfs with
  | Except.error e => ⟨db, false, some e⟩
  | Except.ok df =>
    let merged := incrementTable true true df db
    ⟨merged.1, true, none⟩

/- ------------------------------------------------------------------ -/
/- Supporting lemmas                                                   -/
/- ------------------------------------------------------------------ -/

theorem keyEq_refl (r : CommitRecord) : keyEq r r = true := by
  simp [keyEq]

theorem keyEq_iff_eq (a b : CommitRecord) : keyEq a b = true ↔ a = b := by
  cases a; cases b
  simp [keyEq, CommitRecord.mk.injEq, and_assoc]

theorem keyInTable_iff_mem (t : List CommitRecord) (r : CommitRecord) :
    keyInTable t r = true ↔ r ∈ t := by
  simp only [keyInTable, List.any_eq_true]
  constructor
  · rintro ⟨s, hs, hk⟩
    rwa [(keyEq_iff_eq s r).mp hk] at hs
  · intro hr
    exact ⟨r, hr, keyEq_refl r⟩

theorem keyInTable_append (t u : List CommitRecord) (r : CommitRecord) :
    keyInTable (t ++ u) r = (keyInTable t r || keyInTable u r) := by
  simp [keyInTable, List.any_append]

theorem noDupKeys_iff_nodup (t : List CommitRecord) :
    noDupKeys t = true ↔ t.Nodup := by
  induction t with
  | nil => simp [noDupKeys]
  | cons r rs ih =>
    simp only [noDupKeys, Bool.and_eq_true, Bool.not_eq_true', List.nodup_cons, ← ih]
    constructor
    · rintro ⟨hni, hnd⟩
      refine ⟨fun hmem => ?_, hnd⟩
      rw [(keyInTable_iff_mem rs r).mpr hmem] at hni
      exact absurd hni (by simp)
    · rintro ⟨hni, hnd⟩
      refine ⟨?_, hnd⟩
      cases hk : keyInTable rs r with
      | false => rfl
      | true => exact absurd ((keyInTable_iff_mem rs r).mp hk) hni

/-- Every row of the batch has its key present after the merge (either it
was already in the table, or the merge inserted that very row). -/
theorem keyInTable_mergeTable (main batch : List CommitRecord)
    (r : CommitRecord) (hr : r ∈ batch) :
    keyInTable (mergeTable main batch) r = true := by
  rw [mergeTable, keyInTable_append]
  cases hmain : keyInTable main r with
  | true => simp
  | false =>
    apply Bool.or_eq_true_iff.mpr
    right
    apply (keyInTable_iff_mem _ r).mpr
    exact List.mem_filter.mpr ⟨hr, by simp [hmain]⟩

/-- The fetch loop's raise condition on a 403 is exactly the rate-limit
helper raising on that header, whatever the clock readings are. -/
theorem rateLimitRaises_iff_error (h : Option String) (now1 now2 : Int) :
    rateLimitRaises h = true ↔ waitForRateLimit h now1 now2 = Except.error () := by
  cases h with
  | none => simp [rateLimitRaises, waitForRateLimit]
  | some s =>
    simp only [rateLimitRaises, waitForRateLimit, Option.isNone_iff_eq_none]
    cases hp : pyInt s <;> simp

/-- The trace of page requests the fetch loop issues starting at `page`
over `n` consecutive successful pages: consecutive page numbers. -/
def requestTrace (page : Nat) : Nat → List FetchEvent
  | 0 => []
  | n + 1 => FetchEvent.request page :: requestTrace (page + 1) n

/-- Batches of 403 responses whose reset headers the rate-limit helper
accepts without raising. -/
def all403NoRaise (qs : List HttpResponse) : Bool :=
  qs.all (fun r => r.status == 403 && !(rateLimitRaises r.resetHeader))

/-- Whether one completed fetch task raised. -/
def resultIsFailure : Except String (List CommitRecord) → Bool
  | Except.ok _ => false
  | Except.error _ => true

/-- Whether every completed fetch task raised (no repository succeeded;
vacuously true of an empty repository list). -/
def allFailed
    (completed : List (RepoTarget × Except String (List CommitRecord))) : Bool :=
  completed.all (fun p => resultIsFailure p.2)

/-- Whether the `increment_table` call propagated a storage exception. -/
def mergeResultFailed : Except StorageError (Bool × Nat) → Bool
  | Except.ok _ => false
  | Except.error _ => true

theorem requestTrace_eq_range (n page : Nat) :
    requestTrace page n
      = (List.range n).map (fun i => FetchEvent.request (page + i)) := by
  induction n generalizing page with
  | zero => simp [requestTrace]
  | succ n ih =>
    rw [requestTrace, ih (page + 1), List.range_succ_eq_map, List.map_cons,
        List.map_map]
    have hf : ((fun i => FetchEvent.request (page + i)) ∘ Nat.succ)
        = fun i => FetchEvent.request (page + 1 + i) := by
      funext i
      show FetchEvent.request (page + (i + 1)) = FetchEvent.request (page + 1 + i)
      congr 1
      omega
    rw [hf]
    simp

/-- Run of the fetch loop over a synthetic nonempty page list: every page
is consumed in order, one request per page, and the accumulated history
is extended by exactly the pages' records in order. -/
theorem fetchGo_pagedResponses (owner repo : String) (ps : List (List ApiCommit))
    (cs : List ApiCommit) (page : Nat) (acc : List CommitRecord) :
    fetchGo owner repo (pagedResponses (cs :: ps)) page acc
      = (requestTrace page (ps.length + 1),
         FetchOutcome.ok (acc ++ pageRecords owner repo (cs :: ps).flatten)) := by
  induction ps generalizing cs page acc with
  | nil =>
    simp [pagedResponses, fetchGo, page200, requestTrace, pageRecords]
  | cons d ps ih =>
    rw [show pagedResponses (cs :: d :: ps)
          = page200 cs true :: pagedResponses (d :: ps) from rfl]
    rw [show fetchGo owner repo (page200 cs true :: pagedResponses (d :: ps)) page acc
          = (FetchEvent.request page ::
               (fetchGo owner repo (pagedResponses (d :: ps)) (page + 1)
                 (acc ++ pageRecords owner repo cs)).1,
             (fetchGo owner repo (pagedResponses (d :: ps)) (page + 1)
               (acc ++ pageRecords owner repo cs)).2) from rfl]
    rw [ih d (page + 1) (acc ++ pageRecords owner repo cs)]
    simp [requestTrace, pageRecords, List.append_assoc]

/- ------------------------------------------------------------------ -/
/- Concrete rows and responses used by counterexamples and witnesses   -/
/- ------------------------------------------------------------------ -/

def rowA : CommitRecord :=
  ⟨"2024-05-01 10:00:00", "alice", "scroll-tech/scroll"⟩

def rowB : CommitRecord :=
  ⟨"2024-05-01 11:30:00", "bob", "scroll-tech/scroll-docs"⟩

/-- A throttling response with a well-formed reset header. -/
def resp403a : HttpResponse :=
  ⟨403, some "1700000000", "rate limit exceeded", [], false⟩

/-- A throttling response with no reset header. -/
def resp403b : HttpResponse :=
  ⟨403, none, "rate limit exceeded", [], false⟩

/-- A throttling response whose reset header does not parse as an
integer. -/
def resp403bad : HttpResponse :=
  ⟨403, some "soon", "rate limit exceeded", [], false⟩

/-- A terminal 200 page with one commit. -/
def respOkOne : HttpResponse :=
  ⟨200, none, "", [⟨"2024-05-01 10:00:00", "alice"⟩], false⟩

/-- A server-error response. -/
def resp500 : HttpResponse :=
  ⟨500, none, "internal error", [], false⟩

/- ------------------------------------------------------------------ -/
/- Claim theorems                                                      -/
/- ------------------------------------------------------------------ -/

/-- C1: the dedup merge is idempotent on batches.  Over a permanent table
that already holds the outcome of merging a batch once, re-running the
merge with the same batch inserts zero additional rows — only staged rows
whose (DATE, USERNAME, REPO_NAME) triple is absent from the permanent
table are inserted — so the table content is the same as after a single
merge. -/
theorem c1_merge_idempotent (main batch : List CommitRecord) :
    insertedRows (mergeTable main batch) batch = [] ∧
    mergeTable (mergeTable main batch) batch = mergeTable main batch := by
  have hins : insertedRows (mergeTable main batch) batch = [] := by
    apply List.filter_eq_nil_iff.mpr
    intro r hr
    simp [keyInTable_mergeTable main batch r hr]
  refine ⟨hins, ?_⟩
  rw [show mergeTable (mergeTable main batch) batch
        = mergeTable main batch ++ insertedRows (mergeTable main batch) batch from rfl,
      hins, List.append_nil]

/-- C2 counterexample: a batch that contains the same key triple twice
defeats the invariant.  The merge's NOT EXISTS filter checks staged rows
against the pre-merge permanent table only, not against each other, so
merging the batch `[rowA, rowA]` into an empty table (which satisfies the
invariant) inserts both copies and the resulting table violates it. -/
theorem c2_dup_batch_counterexample :
    noDupKeys [] = true ∧
    insertedRows [] [rowA, rowA] = [rowA, rowA] ∧
    mergeTable [] [rowA, rowA] = [rowA, rowA] ∧
    noDupKeys (mergeTable [] [rowA, rowA]) = false := by
  decide

/-- C2 (amended): the merge preserves the no-duplicate-key invariant for
every starting table satisfying it and every incoming batch whose own
rows are pairwise distinct on the key triple; a batch whose rows repeat a
triple absent from the table breaks the invariant (see the
counterexample). -/
theorem c2_merge_preserves_noDupKeys (main batch : List CommitRecord)
    (hm : noDupKeys main = true) (hb : noDupKeys batch = true) :
    noDupKeys (mergeTable main batch) = true := by
  rw [noDupKeys_iff_nodup] at hm hb ⊢
  refine List.Nodup.append hm (hb.filter _) ?_
  intro r hrm hri
  have hfilt := (List.mem_filter.mp hri).2
  rw [Bool.not_eq_true'] at hfilt
  rw [← keyInTable_iff_mem] at hrm
  rw [hfilt] at hrm
  exact absurd hrm (by simp)

theorem c2_merge_preserves_noDupKeys_witness :
    noDupKeys [rowA] = true ∧ noDupKeys [rowA, rowB] = true ∧
    noDupKeys (mergeTable [rowA] [rowA, rowB]) = true :=
  ⟨by decide, by decide,
   c2_merge_preserves_noDupKeys [rowA] [rowA, rowB] (by decide) (by decide)⟩

/-- C3: pagination completeness.  Against a synthetic paginated source of
K pages, `fetch_commit_history` requests consecutive pages 1..max 1 K —
advancing only while a `next` link is present — and returns exactly the
concatenation of all K pages' records mapped to
(date, username, owner/name), with nothing dropped or duplicated; for
K = 0 (an empty first page, no continuation) it returns the empty
sequence without raising. -/
theorem c3_fetch_pagination_complete (owner repo : String)
    (pages : List (List ApiCommit)) :
    fetchCommitHistory owner repo (syntheticSource pages)
      = ((List.range (max 1 pages.length)).map (fun i => FetchEvent.request (1 + i)),
         FetchOutcome.ok (pageRecords owner repo pages.flatten)) := by
  cases pages with
  | nil =>
    rfl
  | cons cs ps =>
    rw [show syntheticSource (cs :: ps) = pagedResponses (cs :: ps) from rfl,
        show fetchCommitHistory owner repo (pagedResponses (cs :: ps))
          = fetchGo owner repo (pagedResponses (cs :: ps)) 1 [] from rfl,
        fetchGo_pagedResponses, requestTrace_eq_range]
    simp [Nat.max_eq_right, Nat.succ_le_iff]

/-- C4 counterexample: a 403 whose `X-RateLimit-Reset` value does not
parse as an integer is not retried.  The rate limiter is invoked on the
response's headers, `int()` raises `ValueError` inside it, and the fetch
aborts: the trace shows exactly one request of page 1 and no re-request,
contradicting the claim that every 403 is followed by a retry of the same
page. -/
theorem c4_malformed_reset_counterexample :
    fetchCommitHistory "scroll-tech" "scroll" [resp403bad, respOkOne]
      = ([FetchEvent.request 1, FetchEvent.rateWait (some "soon")],
         FetchOutcome.valueError) ∧
    waitForRateLimit (some "soon") 1700000000 1700000000 = Except.error () :=
  ⟨by decide, by rfl⟩

/-- C4 (amended): for every batch of 403 responses whose reset headers the
rate limiter accepts without raising (header absent, or an integer),
the fetch loop invokes the rate limiter on each such response's headers
and re-requests the same page number — the page counter is never advanced
by a 403 — and then continues exactly as it would on the remaining
responses; a 403 whose reset header fails to parse makes the limiter
raise instead of retrying (see the counterexample). -/
theorem c4_403_retries_same_page (owner repo : String)
    (qs rest : List HttpResponse) (page : Nat) (acc : List CommitRecord)
    (h : all403NoRaise qs = true) :
    fetchGo owner repo (qs ++ rest) page acc
      = ((qs.map (fun r =>
            [FetchEvent.request page, FetchEvent.rateWait r.resetHeader])).flatten
           ++ (fetchGo owner repo rest page acc).1,
         (fetchGo owner repo rest page acc).2) := by
  induction qs with
  | nil => simp
  | cons q qs ih =>
    rw [all403NoRaise, List.all_cons, Bool.and_eq_true] at h
    obtain ⟨hq, hqs⟩ := h
    rw [Bool.and_eq_true] at hq
    obtain ⟨hq403, hqraise⟩ := hq
    rw [Bool.not_eq_true'] at hqraise
    rw [List.cons_append]
    rw [show fetchGo owner repo (q :: (qs ++ rest)) page acc
          = if q.status == 403 then
              if rateLimitRaises q.resetHeader then
                ([FetchEvent.request page, FetchEvent.rateWait q.resetHeader],
                 FetchOutcome.valueError)
              else
                (FetchEvent.request page :: FetchEvent.rateWait q.resetHeader ::
                   (fetchGo owner repo (qs ++ rest) page acc).1,
                 (fetchGo owner repo (qs ++ rest) page acc).2)
            else if q.status != 200 then
              ([FetchEvent.request page],
               FetchOutcome.err ("Failed to fetch commit history: " ++ q.content))
            else
              if q.hasNext then
                (FetchEvent.request page ::
                   (fetchGo owner repo (qs ++ rest) (page + 1)
                     (acc ++ pageRecords owner repo q.commits)).1,
                 (fetchGo owner repo (qs ++ rest) (page + 1)
                   (acc ++ pageRecords owner repo q.commits)).2)
              else
                ([FetchEvent.request page],
                 FetchOutcome.ok (acc ++ pageRecords owner repo q.commits))
          from rfl]
    rw [hq403, hqraise]
    simp only [if_true, Bool.false_eq_true, if_false, ih hqs]
    simp [List.append_assoc]

theorem c4_403_retries_same_page_witness :
    all403NoRaise [resp403a, resp403b] = true ∧
    fetchGo "scroll-tech" "scroll" ([resp403a, resp403b] ++ [respOkOne]) 1 []
      = (([resp403a, resp403b].map (fun r =>
            [FetchEvent.request 1, FetchEvent.rateWait r.resetHeader])).flatten
           ++ (fetchGo "scroll-tech" "scroll" [respOkOne] 1 []).1,
         (fetchGo "scroll-tech" "scroll" [respOkOne] 1 []).2) :=
  ⟨by decide,
   c4_403_retries_same_page "scroll-tech" "scroll" [resp403a, resp403b]
     [respOkOne] 1 [] (by decide)⟩

/-- C5 counterexample: the exception raised on a non-403 non-200 response
does not carry the repository identity.  Two fetches of distinct
repositories that receive the same server-error response produce literally
identical results — the error message is built from the response content
alone — so the error cannot identify the repository. -/
theorem c5_identity_counterexample :
    fetchCommitHistory "scroll-tech" "scroll" [resp500]
      = fetchCommitHistory "other-owner" "other-repo" [resp500] ∧
    (fetchCommitHistory "scroll-tech" "scroll" [resp500]).2
      = FetchOutcome.err "Failed to fetch commit history: internal error" := by
  decide

/-- C5 (amended): on any response whose status is neither 403 nor 200 the
fetch fails immediately — no further page is requested — with an error
message carrying the response body (the repository identity is not part
of the raised error; the collector attaches it when reporting), and no
partial results are returned: the accumulated records are discarded, the
outcome holds no records. -/
theorem c5_non403_error_immediate (owner repo : String) (r : HttpResponse)
    (rest : List HttpResponse) (page : Nat) (acc : List CommitRecord)
    (h403 : r.status ≠ 403) (h200 : r.status ≠ 200) :
    fetchGo owner repo (r :: rest) page acc
      = ([FetchEvent.request page],
         FetchOutcome.err ("Failed to fetch commit history: " ++ r.content)) := by
  have hb403 : (r.status == 403) = false := by
    simp only [beq_eq_false_iff_ne, ne_eq]
    exact h403
  have hb200 : (r.status != 200) = true := by
    simp only [bne_iff_ne, ne_eq]
    exact h200
  simp [fetchGo, hb403, hb200]

/-- C6: failure isolation in the collector.  For a succeeding repository
R1 and a failing repository R2, in either completion order, the aggregate
dataframe list contains exactly R1's records and the failure report
contains exactly R2 with its error: R2 contributes no records and does
not disturb R1's. -/
theorem c6_failure_isolation (r1 r2 : RepoTarget)
    (recs : List CommitRecord) (e : String) :
    collectAll [(r1, Except.ok recs), (r2, Except.error e)]
      = ([recs], [(r2, e)]) ∧
    collectAll [(r2, Except.error e), (r1, Except.ok recs)]
      = ([recs], [(r2, e)]) := by
  constructor <;> rfl

/-- C7 counterexample: `wait_for_rate_limit` is not total.  A present but
unparseable `X-RateLimit-Reset` value is fed to `int()`, which raises
`ValueError` instead of defaulting to zero wait. -/
theorem c7_malformed_reset_counterexample :
    waitForRateLimit (some "not-a-number") 1700000000 1700000005
      = Except.error () := by
  rfl

/-- C7 (amended): a missing `X-RateLimit-Reset` defaults the reset instant
to the current time, giving zero wait, and a value that parses as an
integer `n` yields a wait of `max 0 (n - now)` without error; but a
present, malformed value makes `int()` raise `ValueError`, which
propagates to the caller (see the counterexample). -/
theorem c7_missing_or_wellformed_no_raise (s : String) (n now1 now2 : Int)
    (hle : now1 ≤ now2) (hs : pyInt s = some n) :
    waitForRateLimit none now1 now2 = Except.ok 0 ∧
    waitForRateLimit (some s) now1 now2 = Except.ok (max 0 (n - now2)) := by
  constructor
  · have hmax : max 0 (now1 - now2) = 0 := max_eq_left (by omega)
    simp [waitForRateLimit, hmax]
  · simp [waitForRateLimit, hs]

theorem c7_missing_or_wellformed_no_raise_witness :
    (1700000000 : Int) ≤ 1700000100 ∧
    pyInt "1700000300" = some 1700000300 ∧
    waitForRateLimit none 1700000000 1700000100 = Except.ok 0 ∧
    waitForRateLimit (some "1700000300") 1700000000 1700000100
      = Except.ok (max 0 ((1700000300 : Int) - 1700000100)) := by
  refine ⟨by decide, by rfl, ?_⟩
  exact c7_missing_or_wellformed_no_raise "1700000300" 1700000300
    1700000000 1700000100 (by decide) (by rfl)

/-- C8: staging failures leave the permanent table untouched.  If the
staging-table creation raises, or it succeeds and the bulk load raises,
`increment_table` propagates the storage error, the merge statement never
runs, and the permanent table after the call equals its content before
the call. -/
theorem c8_staging_failure_frame (createOk writeOk : Bool)
    (batch : List CommitRecord) (db : DB)
    (h : createOk = false ∨ writeOk = false) :
    ((incrementTable createOk writeOk batch db).1).main = db.main ∧
    mergeResultFailed (incrementTable createOk writeOk batch db).2 = true := by
  rcases h with h | h
  · subst h
    simp [incrementTable, createTempStep, mergeResultFailed]
  · subst h
    cases createOk with
    | false => simp [incrementTable, createTempStep, mergeResultFailed]
    | true =>
      simp [incrementTable, createTempStep, writePandasStep, mergeResultFailed]

theorem c8_staging_failure_frame_witness :
    ((false : Bool) = false ∨ (true : Bool) = false) ∧
    ((incrementTable false true [rowA] ⟨[rowB], none⟩).1).main = [rowB] ∧
    mergeResultFailed (incrementTable false true [rowA] ⟨[rowB], none⟩).2
      = true :=
  ⟨Or.inl rfl,
   (c8_staging_failure_frame false true [rowA] ⟨[rowB], none⟩ (Or.inl rfl)).1,
   (c8_staging_failure_frame false true [rowA] ⟨[rowB], none⟩ (Or.inl rfl)).2⟩

/-- C9 counterexample: the reported inserted-row count is not the number
of rows the merge added.  Merging the one-row batch `[rowA]` into a
permanent table that already holds `rowA` loads 1 row into staging and
inserts 0 rows into the permanent table, yet the call reports
`(success, nrows) = (true, 1)`. -/
theorem c9_reported_count_counterexample :
    incrementTable true true [rowA] ⟨[rowA], none⟩
      = (⟨[rowA], some [rowA]⟩, Except.ok (true, 1)) ∧
    (insertedRows [rowA] [rowA]).length = 0 := by
  constructor <;> rfl

/-- C9 (amended): the `nrows` figure the closing report prints is the
row count `write_pandas` loaded into the staging table — always the full
batch size — while the number of rows the merge actually added to the
permanent table is the count of staged rows whose key triple was absent,
which can be smaller. -/
theorem c9_reported_count_is_staging_rows (batch : List CommitRecord)
    (db : DB) :
    incrementTable true true batch db
      = (⟨mergeTable db.main batch, some batch⟩,
         Except.ok (true, batch.length)) ∧
    (mergeTable db.main batch).length
      = db.main.length + (insertedRows db.main batch).length := by
  constructor
  · simp [incrementTable, createTempStep, writePandasStep, mergeStep]
  · simp [mergeTable]

/-- No fetch task succeeded: the collector's dataframe list is empty. -/
theorem collectAll_allFailed
    (completed : List (RepoTarget × Except String (List CommitRecord)))
    (h : allFailed completed = true) :
    (collectAll completed).1 = [] := by
  induction completed with
  | nil => rfl
  | cons p rest ih =>
    rw [allFailed, List.all_cons, Bool.and_eq_true] at h
    obtain ⟨hp, hrest⟩ := h
    obtain ⟨repo, res⟩ := p
    cases res with
    | ok recs => exact absurd hp (by simp [resultIsFailure])
    | error e =>
      rw [show collectAll ((repo, Except.error e) :: rest)
            = ((collectAll rest).1, (repo, e) :: (collectAll rest).2) from rfl]
      exact ih hrest

/-- C10: a run in which no repository fetch succeeds (every task raised,
or the repository list is empty) collects no dataframes, so
`pd.concat` raises `ValueError` and the run aborts before
`increment_table` is ever called: the permanent table is untouched and no
empty merge happens. -/
theorem c10_no_success_aborts_before_merge
    (completed : List (RepoTarget × Except String (List CommitRecord)))
    (db : DB) (h : allFailed completed = true) :
    runMain completed db = ⟨db, false, some "No objects to concatenate"⟩ := by
  have hdfs := collectAll_allFailed completed h
  simp [runMain, hdfs, pdConcat]

theorem c10_no_success_aborts_before_merge_witness :
    allFailed [(⟨"scroll-tech", "scroll", "https://github.com/scroll-tech/scroll"⟩,
                Except.error "boom")] = true ∧
    runMain [(⟨"scroll-tech", "scroll", "https://github.com/scroll-tech/scroll"⟩,
              Except.error "boom")] ⟨[rowA], none⟩
      = ⟨⟨[rowA], none⟩, false, some "No objects to concatenate"⟩ :=
  ⟨by rfl,
   c10_no_success_aborts_before_merge
     [(⟨"scroll-tech", "scroll", "https://github.com/scroll-tech/scroll"⟩,
       Except.error "boom")] ⟨[rowA], none⟩ (by rfl)⟩

theorem c5_non403_error_immediate_witness :
    resp500.status ≠ 403 ∧ resp500.status ≠ 200 ∧
    fetchGo "scroll-tech" "scroll" [resp500] 7 [rowA]
      = ([FetchEvent.request 7],
         FetchOutcome.err ("Failed to fetch commit history: " ++ resp500.content)) :=
  ⟨by decide, by decide,
   c5_non403_error_immediate "scroll-tech" "scroll" resp500 [] 7 [rowA]
     (by decide) (by decide)⟩

end ScrollGit
